import Mathlib

/-!
Verification of the repository `rustEnumsPatterns` against its specification.

The repository is a single Rust source file, `src/main.rs`: one entry-point
function `main` whose first statement prints a fixed greeting and whose body
otherwise consists of commented study notes on pattern matching, inert
illustrative fragments referencing undefined names, and a genuine
binary-search-tree insertion method `BinaryTree::add`.

This file gives a shallow embedding of:
* the observable behavior of a run of `main` (an effect trace);
* the `BinaryTree`/`TreeNode` data type and its `add` method
  (src/main.rs lines 359-387);
* the nested function `check_move` (src/main.rs lines 95-105);
* the static structure of the source file (which names are defined,
  which are merely referenced) needed by the structural claims.
-/

/-- The alphabet of externally observable effects a run of a Rust program of
this shape could emit: a line printed to standard output (`println!` prints
its argument followed by a newline), a file write, a change of persisted
state, and the concurrency primitives (spawning a thread, acquiring a lock).
`main` in src/main.rs only ever emits `print`. -/
inductive Effect where
  | print (line : String)
  | fileWrite (path contents : String)
  | stateChange (key value : String)
  | spawnThread (id : Nat)
  | lockAcquire (id : Nat)
deriving DecidableEq, Repr

/-- An effect is input/output when it touches the outside world through a
stream or the file system: printing to standard output is I/O, as is a file
write. -/
def Effect.isInputOutput : Effect → Bool
  | .print _ => true
  | .fileWrite _ _ => true
  | .stateChange _ _ => false
  | .spawnThread _ => false
  | .lockAcquire _ => false

/-- An effect is a concurrency primitive when it spawns a thread or acquires
a lock. -/
def Effect.isConcurrency : Effect → Bool
  | .spawnThread _ => true
  | .lockAcquire _ => true
  | _ => false

/-- Everything a run of the program could observe from its environment:
command-line arguments, environment variables, standard input, and state
persisted by prior runs. `main` (src/main.rs line 1) takes no arguments and
its executable code reads none of these. -/
structure RunInput where
  args : List String
  env : List (String × String)
  stdin : List String
  priorState : List String

/-- Shallow embedding of a run of `main` (src/main.rs lines 1-407) as the
trace of observable effects it emits. The only executable statement in the
body is `println!("Hello, world!")` on line 2: every other fragment is either
a comment, a nested item definition (`rough_time_to_english`,
`describe_point`, `check_move`, `BinaryTree`, `TreeNode`, `impl BinaryTree`)
that is never called, or an illustrative statement referencing names that are
never defined (see `referencedUndefinedNames`), which therefore belongs to no
compiled program. The trace is independent of the input. -/
def mainRun (_input : RunInput) : List Effect :=
  [Effect.print "Hello, world!"]

/-- The snippets of src/main.rs evaluated during a run of `main`, by name:
none. The nested functions (`rough_time_to_english` line 18, `describe_point`
line 122, `check_move` line 95) are defined but never called; the floating
`Result`/`Option` fragments (the `match line_result` statement at lines
195-201 among them) reference undefined values and are never compiled, hence
never evaluated. -/
def mainEvaluatedSnippets (_input : RunInput) : List String := []

/-- Shallow embedding of `check_move` (src/main.rs lines 95-105). The types
`Hex` and `Point` and the function `point_to_hex` are undefined in the source
(see `referencedUndefinedNames`), so they are parameters here. Per Rust
pattern semantics the second arm `Some(current_hex)` binds a fresh variable
shadowing the argument, so it matches every `Some`; the source's third arm
`Some(other_hex) => Ok(other_hex)` is unreachable (as the source's own
comment on line 107 notes) and is omitted, which Rust reports as a warning
but still compiles; Lean rejects redundant alternatives outright. -/
def check_move {Hex Point : Type} (point_to_hex : Point → Option Hex)
    (_current_hex : Hex) (click : Point) : Except String Hex :=
  match point_to_hex click with
  | none => Except.error "That\x27s not a game space."
  | some _current_hex =>
      Except.error "You are already there! You must click somewhere else."

mutual
/-- Shallow embedding of `enum BinaryTree<T>` (src/main.rs lines 359-362).
The `Box` around `TreeNode<T>` is heap indirection with no semantic content
and is erased. -/
inductive BinaryTree (α : Type) : Type where
  | Empty : BinaryTree α
  | NonEmpty (node : TreeNode α) : BinaryTree α

/-- Shallow embedding of `struct TreeNode<T>` (src/main.rs lines 364-368):
an element together with left and right subtrees. -/
inductive TreeNode (α : Type) : Type where
  | mk (element : α) (left : BinaryTree α) (right : BinaryTree α) : TreeNode α
end

mutual
/-- Shallow embedding of `BinaryTree::add` (src/main.rs lines 370-387).
The Rust method mutates `*self` in place; here it returns the new tree.
An empty tree becomes a single node holding `value` with two empty subtrees;
a non-empty tree descends into the node. -/
def BinaryTree.add [LinearOrder α] : BinaryTree α → α → BinaryTree α
  | .Empty, value =>
      .NonEmpty (.mk value .Empty .Empty)
  | .NonEmpty node, value =>
      .NonEmpty (TreeNode.add node value)

/-- The non-empty case of `BinaryTree::add` (src/main.rs lines 379-384):
if `value <= node.element` the value is added to the left subtree,
otherwise to the right subtree. -/
def TreeNode.add [LinearOrder α] : TreeNode α → α → TreeNode α
  | .mk element left right, value =>
      if value ≤ element then
        .mk element (BinaryTree.add left value) right
      else
        .mk element left (BinaryTree.add right value)
end

mutual
/-- In-order list of the elements stored in a tree. -/
def BinaryTree.toList : BinaryTree α → List α
  | .Empty => []
  | .NonEmpty node => TreeNode.toList node

/-- In-order list of the elements stored at and below a node. -/
def TreeNode.toList : TreeNode α → List α
  | .mk element left right =>
      BinaryTree.toList left ++ element :: BinaryTree.toList right
end

mutual
/-- `p` holds of every element stored in the tree (Boolean, so that concrete
instances can be settled by evaluation). -/
def BinaryTree.forAllElems (p : α → Bool) : BinaryTree α → Bool
  | .Empty => true
  | .NonEmpty node => TreeNode.forAllElems p node

/-- `p` holds of the node's element and of every element of its subtrees. -/
def TreeNode.forAllElems (p : α → Bool) : TreeNode α → Bool
  | .mk element left right =>
      p element && BinaryTree.forAllElems p left
        && BinaryTree.forAllElems p right
end

/-- The names of the types defined in src/main.rs: `enum RoughTime`
(line 9), `enum BinaryTree` (line 359) and `struct TreeNode` (line 364),
all nested inside `main`. No other `enum`, `struct`, `trait` or type alias
is defined anywhere in the file. -/
def definedTypeNames : List String :=
  ["RoughTime", "BinaryTree", "TreeNode"]

/-- The names of the functions defined in src/main.rs: the entry point
`main` (line 1) and, nested in its body, `rough_time_to_english` (line 18),
`check_move` (line 95), `describe_point` (line 122), the fragment
`distance_to` (line 313, whose body is the literal dots placeholder) and the
method `add` of `impl BinaryTree` (line 371). -/
def definedFnNames : List String :=
  ["main", "rough_time_to_english", "check_move", "describe_point",
   "distance_to", "add"]

/-- The value names bound by `let` statements in the body of `main`, in file
order: `calendar` (line 65), `caption` (line 76), `at_end` (line 237),
`album`, `track_number` and `title` (line 310, through a struct pattern),
`sum` (line 323) and `tree` (line 399). Every other value binding in the file
is a function parameter or a match-arm, for-loop or closure pattern variable
local to its own snippet; none of those introduces any of the names in
`referencedUnconstructedValueNames` either. -/
def letBoundNames : List String :=
  ["calendar", "caption", "at_end", "album", "track_number", "title",
   "sum", "tree"]

/-- Type names referenced by the snippets of src/main.rs but defined nowhere
in the file, in order of first reference: `TimeUnit` (line 10), `Calendar`
(line 67), `Pet` (line 78), `Shape` (line 89), `Hex` and `Point` (line 95),
`Account` (line 154), `Point3d` (line 207), `Car` (line 216) and `Track`
(line 310). -/
def referencedUndefinedTypeNames : List String :=
  ["TimeUnit", "Calendar", "Pet", "Shape", "Hex", "Point",
   "Account", "Point3d", "Car", "Track"]

/-- Value names the snippets of src/main.rs use but that no statement of the
file ever binds or constructs, in order of first use: `meadow` (line 56),
`settings` (line 66), `photo` (line 77), `balloon` (line 136), `account`
(line 173), `line_result` (line 195), `sphere` (line 206), `friend`
(line 215), `chars` (line 227), `next_char` (line 246), `robot` (line 264),
`song` (line 310), `numbers` (line 323), `cache_map` (line 316), `user`
(line 334) and `lines` (line 350). -/
def referencedUnconstructedValueNames : List String :=
  ["meadow", "settings", "photo", "balloon", "account", "line_result",
   "sphere", "friend", "chars", "next_char", "robot", "song", "numbers",
   "cache_map", "user", "lines"]

/-- All names the source references without defining them. A Rust program
referencing any such name is rejected by the compiler, so the file does not
compile as a coherent whole. -/
def referencedUndefinedNames : List String :=
  referencedUndefinedTypeNames ++ referencedUnconstructedValueNames

/-- The top-level items of src/main.rs: a single entry-point function
`fn main` spanning lines 1-407. Nothing else appears at top level. -/
def topLevelItems : List String := ["fn main"]

/-- How many times the entry-point function `fn main` occurs in src/main.rs:
exactly once, at line 1. The file is not a sequence of repeated copies. -/
def entryPointCopies : Nat := 1

/-- The commented section headings of `main`'s body in file order: the flat
sequence of note fragments the file consists of ("Reference Patters" is the
source's own spelling, line 168). -/
def mainBodySections : List String :=
  ["Patterns", "Literals, Variables, and Wildcards in Patterns",
   "Tuple and Struct Patterns", "Reference Patters",
   "Matching Multiple Possibilities", "Pattern Guards", "@ patterns",
   "Where Patterns Are Allowed", "Populating a Binary Tree"]

mutual
/-- The binary-search-tree ordering invariant: at every node, the left
subtree holds only elements less than or equal to the node's element and the
right subtree holds only elements strictly greater. -/
def BinaryTree.isSearchTree [LinearOrder α] : BinaryTree α → Bool
  | .Empty => true
  | .NonEmpty node => TreeNode.isSearchTree node

/-- The binary-search-tree ordering invariant at a node. -/
def TreeNode.isSearchTree [LinearOrder α] : TreeNode α → Bool
  | .mk element left right =>
      BinaryTree.forAllElems (fun x => decide (x ≤ element)) left
        && BinaryTree.forAllElems (fun x => decide (element < x)) right
        && BinaryTree.isSearchTree left
        && BinaryTree.isSearchTree right
end

mutual
/-- Adding a value satisfying `p` to a tree whose elements all satisfy `p`
yields a tree whose elements all satisfy `p`. -/
theorem BinaryTree.forAllElems_add [LinearOrder α] (p : α → Bool) (v : α) :
    ∀ t : BinaryTree α, BinaryTree.forAllElems p t = true → p v = true →
      BinaryTree.forAllElems p (BinaryTree.add t v) = true
  | .Empty, _, hv => by
      simp [BinaryTree.add, BinaryTree.forAllElems, TreeNode.forAllElems, hv]
  | .NonEmpty n, ht, hv => by
      simp only [BinaryTree.add, BinaryTree.forAllElems] at ht ⊢
      exact TreeNode.forAllElems_add_node p v n ht hv

/-- Node version of `BinaryTree.forAllElems_add`. -/
theorem TreeNode.forAllElems_add_node [LinearOrder α] (p : α → Bool) (v : α) :
    ∀ n : TreeNode α, TreeNode.forAllElems p n = true → p v = true →
      TreeNode.forAllElems p (TreeNode.add n v) = true
  | .mk e l r, hn, hv => by
      simp only [TreeNode.forAllElems, Bool.and_eq_true] at hn
      obtain ⟨⟨he, hl⟩, hr⟩ := hn
      by_cases hc : v ≤ e
      · simp only [TreeNode.add, if_pos hc, TreeNode.forAllElems,
          Bool.and_eq_true]
        exact ⟨⟨he, BinaryTree.forAllElems_add p v l hl hv⟩, hr⟩
      · simp only [TreeNode.add, if_neg hc, TreeNode.forAllElems,
          Bool.and_eq_true]
        exact ⟨⟨he, hl⟩, BinaryTree.forAllElems_add p v r hr hv⟩
end

mutual
/-- `BinaryTree.add` preserves the search-tree invariant. -/
theorem BinaryTree.isSearchTree_add [LinearOrder α] (v : α) :
    ∀ t : BinaryTree α, BinaryTree.isSearchTree t = true →
      BinaryTree.isSearchTree (BinaryTree.add t v) = true
  | .Empty, _ => by
      simp [BinaryTree.add, BinaryTree.isSearchTree, TreeNode.isSearchTree,
        BinaryTree.forAllElems]
  | .NonEmpty n, ht => by
      simp only [BinaryTree.add, BinaryTree.isSearchTree] at ht ⊢
      exact TreeNode.isSearchTree_add_node v n ht

/-- Node version of `BinaryTree.isSearchTree_add`. -/
theorem TreeNode.isSearchTree_add_node [LinearOrder α] (v : α) :
    ∀ n : TreeNode α, TreeNode.isSearchTree n = true →
      TreeNode.isSearchTree (TreeNode.add n v) = true
  | .mk e l r, hn => by
      simp only [TreeNode.isSearchTree, Bool.and_eq_true] at hn
      obtain ⟨⟨⟨hle, hgt⟩, hbl⟩, hbr⟩ := hn
      by_cases hc : v ≤ e
      · simp only [TreeNode.add, if_pos hc, TreeNode.isSearchTree,
          Bool.and_eq_true]
        exact ⟨⟨⟨BinaryTree.forAllElems_add _ v l hle (decide_eq_true hc),
          hgt⟩, BinaryTree.isSearchTree_add v l hbl⟩, hbr⟩
      · simp only [TreeNode.add, if_neg hc, TreeNode.isSearchTree,
          Bool.and_eq_true]
        exact ⟨⟨⟨hle, BinaryTree.forAllElems_add _ v r hgt
          (decide_eq_true (not_le.mp hc))⟩, hbl⟩,
          BinaryTree.isSearchTree_add v r hbr⟩
end

mutual
/-- The in-order list of `t.add v` is a permutation of `v` consed onto the
in-order list of `t`. -/
theorem BinaryTree.toList_add_perm [LinearOrder α] (v : α) :
    ∀ t : BinaryTree α,
      (BinaryTree.toList (BinaryTree.add t v)).Perm
        (v :: BinaryTree.toList t)
  | .Empty => by
      simp [BinaryTree.add, BinaryTree.toList, TreeNode.toList]
  | .NonEmpty n => by
      simp only [BinaryTree.add, BinaryTree.toList]
      exact TreeNode.toList_add_perm_node v n

/-- Node version of `BinaryTree.toList_add_perm`. -/
theorem TreeNode.toList_add_perm_node [LinearOrder α] (v : α) :
    ∀ n : TreeNode α,
      (TreeNode.toList (TreeNode.add n v)).Perm (v :: TreeNode.toList n)
  | .mk e l r => by
      by_cases hc : v ≤ e
      · simp only [TreeNode.add, if_pos hc, TreeNode.toList]
        exact ((BinaryTree.toList_add_perm v l).append_right
          (e :: BinaryTree.toList r))
      · simp only [TreeNode.add, if_neg hc, TreeNode.toList]
        have h₁ : (BinaryTree.toList l ++
            e :: BinaryTree.toList (BinaryTree.add r v)).Perm
            (BinaryTree.toList l ++ e :: v :: BinaryTree.toList r) :=
          ((BinaryTree.toList_add_perm v r).cons e).append_left
            (BinaryTree.toList l)
        have h₂ : (BinaryTree.toList l ++ e :: v :: BinaryTree.toList r).Perm
            (v :: (BinaryTree.toList l ++ e :: BinaryTree.toList r)) := by
          have := @List.perm_middle α v (BinaryTree.toList l ++ [e])
            (BinaryTree.toList r)
          simpa using this
        exact h₁.trans h₂
end

/-- C1: on program start, the program prints a constant greeting string to
standard output, and printing this fixed greeting is the program's only
externally observable behavior. The trace of any run is exactly the single
`print "Hello, world!"` effect, so no other output, file write or state
change is ever observable from any run. -/
theorem claim_C1_greeting_only_observable (i : RunInput) :
    mainRun i = [Effect.print "Hello, world!"] := rfl

/-- C2: `BinaryTree::add`, called on any tree with any value of an ordered
type, follows exactly the recursive algorithm of src/main.rs lines 370-387:
an empty tree is replaced by a single node holding the value and two empty
subtrees; a non-empty tree descends into the left subtree when the new value
is less than or equal to the node's element and into the right subtree when
it is greater. -/
theorem claim_C2_add_algorithm {α : Type} [LinearOrder α] (v e : α)
    (l r : BinaryTree α) :
    BinaryTree.add BinaryTree.Empty v
        = BinaryTree.NonEmpty (TreeNode.mk v BinaryTree.Empty BinaryTree.Empty)
      ∧
    BinaryTree.add (BinaryTree.NonEmpty (TreeNode.mk e l r)) v
        = (if v ≤ e then
            BinaryTree.NonEmpty (TreeNode.mk e (BinaryTree.add l v) r)
          else
            BinaryTree.NonEmpty (TreeNode.mk e l (BinaryTree.add r v))) := by
  refine ⟨rfl, ?_⟩
  by_cases hc : v ≤ e
  · simp [BinaryTree.add, TreeNode.add, if_pos hc]
  · simp [BinaryTree.add, TreeNode.add, if_neg hc]

/-- C3: every run of the program prints the greeting and then terminates:
the greeting is in the trace of every run, and the trace is a completed,
one-element list (`mainRun` is a total function, so every run ends). -/
theorem claim_C3_prints_and_terminates (i : RunInput) :
    Effect.print "Hello, world!" ∈ mainRun i ∧ (mainRun i).length = 1 := by
  constructor
  · simp [mainRun]
  · rfl

/-- C4: the program's observable output is identical across any two runs;
with no CLI surface, file format, wire protocol or persisted state, the
trace does not depend on command-line arguments, input, environment, or
prior runs. -/
theorem claim_C4_runs_identical (i j : RunInput) : mainRun i = mainRun j :=
  rfl

/-- C5 counterexample: the claim that every execution performs no I/O is
false: the very first effect of a run on empty inputs, the greeting printed
to standard output by line 2, is I/O. -/
theorem claim_C5_counterexample :
    ((mainRun (RunInput.mk [] [] [] [])).any Effect.isInputOutput) = true :=
  rfl

/-- C5 (amended): every execution of the code performs no I/O beyond the
single greeting print to standard output, touches no shared resources, and
uses no concurrency primitives; execution is entirely synchronous and
single-threaded (a single sequential trace). -/
theorem claim_C5_amended_no_io_beyond_greeting (i : RunInput) :
    (mainRun i).filter Effect.isInputOutput = [Effect.print "Hello, world!"]
      ∧ (mainRun i).filter Effect.isConcurrency = [] := ⟨rfl, rfl⟩

/-- C6: the `Result`/`Option`-shaped snippets (`check_move`, lines 95-105,
and the `match line_result` fragment, lines 195-201) are never exercised: no
run of the program evaluates them, and the complete trace of every run is
the single greeting print, so no `Err` value is ever produced or observed at
runtime. -/
theorem claim_C6_snippets_never_exercised (i : RunInput) :
    (mainEvaluatedSnippets i).contains "check_move" = false ∧
    (mainEvaluatedSnippets i).contains "line_result" = false ∧
    mainEvaluatedSnippets i = [] ∧
    mainRun i = [Effect.print "Hello, world!"] := ⟨rfl, rfl, rfl, rfl⟩

/-- C7 counterexample: the claim that the file's content is duplicated five
times is false: the entry-point function `fn main` (and with it the flat
sequence of fragments it contains) occurs exactly once in src/main.rs, not
five times. -/
theorem claim_C7_counterexample :
    (entryPointCopies == 5) = false ∧ entryPointCopies = 1 := by decide

/-- C7 (amended): the source file is a single flat sequence of code
fragments inside one entry-point function; that function and its sequence of
fragments appear exactly once in the file, not duplicated. -/
theorem claim_C7_amended_single_flat_sequence :
    topLevelItems = ["fn main"] ∧ entryPointCopies = 1 ∧
    mainBodySections.length = 9 := ⟨rfl, rfl, rfl⟩

/-- C8: the illustrative snippet code does not compile as a coherent whole:
the types `TimeUnit`, `Account`, `Hex`, `Calendar` and `Shape` are never
defined, the values `meadow`, `settings`, `photo`, `sphere` and `chars` are
never constructed, all ten are nonetheless referenced, and the set of
referenced-but-undefined names is non-empty, so the Rust compiler rejects
the file. -/
theorem claim_C8_snippets_incoherent :
    (["TimeUnit", "Account", "Hex", "Calendar", "Shape"].all
      (fun t => !(definedTypeNames.contains t))) = true ∧
    (["meadow", "settings", "photo", "sphere", "chars"].all
      (fun v => !(letBoundNames.contains v))) = true ∧
    (["TimeUnit", "Account", "Hex", "Calendar", "Shape"].all
      (fun t => referencedUndefinedNames.contains t)) = true ∧
    (["meadow", "settings", "photo", "sphere", "chars"].all
      (fun v => referencedUndefinedNames.contains v)) = true ∧
    referencedUndefinedNames.isEmpty = false := by decide

/-- C9: `BinaryTree::add` preserves the binary-search-tree ordering
invariant: if every node's left subtree holds only elements less than or
equal to its element and every node's right subtree holds only elements
strictly greater, the same is true after `add v`, for every value `v`. -/
theorem claim_C9_add_preserves_search_invariant {α : Type} [LinearOrder α]
    (t : BinaryTree α) (v : α)
    (h : BinaryTree.isSearchTree t = true) :
    BinaryTree.isSearchTree (BinaryTree.add t v) = true :=
  BinaryTree.isSearchTree_add v t h

/-- Witness for C9: a concrete search tree over ℕ with elements 1, 2, 5
still satisfies the invariant after adding 3. -/
theorem claim_C9_witness :
    BinaryTree.isSearchTree
      (BinaryTree.add
        (BinaryTree.NonEmpty (TreeNode.mk (2 : ℕ)
          (BinaryTree.NonEmpty (TreeNode.mk 1 BinaryTree.Empty BinaryTree.Empty))
          (BinaryTree.NonEmpty (TreeNode.mk 5 BinaryTree.Empty BinaryTree.Empty))))
        3) = true :=
  claim_C9_add_preserves_search_invariant _ 3 (by decide)

/-- C10: for every finite tree `t` and value `v`, `t.add v` terminates
(`BinaryTree.add` is a total function defined by structural recursion) and
the multiset of stored elements afterwards is exactly the previous multiset
plus one occurrence of `v`; a value equal to the node's element descends
into the left subtree and is inserted, never discarded, so each add grows
the element count by one. -/
theorem claim_C10_add_multiset {α : Type} [LinearOrder α]
    (t : BinaryTree α) (v : α) (l r : BinaryTree α) :
    ((BinaryTree.toList (BinaryTree.add t v) : Multiset α)
        = v ::ₘ (BinaryTree.toList t : Multiset α)) ∧
    (BinaryTree.toList (BinaryTree.add t v)).length
        = (BinaryTree.toList t).length + 1 ∧
    BinaryTree.add (BinaryTree.NonEmpty (TreeNode.mk v l r)) v
        = BinaryTree.NonEmpty (TreeNode.mk v (BinaryTree.add l v) r) := by
  refine ⟨?_, ?_, ?_⟩
  · exact (Multiset.coe_eq_coe.mpr (BinaryTree.toList_add_perm v t)).trans
      (Multiset.cons_coe v (BinaryTree.toList t)).symm
  · have h := (BinaryTree.toList_add_perm v t).length_eq
    simpa using h
  · simp [BinaryTree.add, TreeNode.add]
